import Mathlib

set_option linter.unusedVariables false

/-!
Shallow embedding of the aggregation algebra of `python/ray/data/aggregate.py`:
the null-safety wrapper (`_null_safe_zero_factory`, `_null_safe_combine`,
`_null_safe_finalize`), the `AggregateFnV2` descriptor constructor, and the
built-in aggregation kinds (Count, Sum, Min, Max, Mean, Std, AbsMax, Quantile,
Unique).

Modelling conventions:
- Python numeric values are embedded as rationals (`ℚ`); exact rational
  arithmetic plays the role of floating point, so properties that the
  specification states "within floating-point tolerance" hold exactly here.
- The reserved null value (`None`, and `NaN`, both of which satisfy
  `is_null` in the source) is embedded as `Option.none`; a non-null
  accumulator `a` is `some a`.
- A Python function that may raise is embedded as `Except String`; the raw
  `combine` of a kind whose combine cannot raise is lifted with
  `liftCombine`.
- `Min`/`Max` accumulators live in `WithTop ℚ` / `WithBot ℚ` so that the
  `float("+inf")` / `float("-inf")` zero values of the source are
  representable.
-/

/-- `_null_safe_zero_factory` from the source: when `ignore_nulls` is true the
safe zero value is null (the monoid identity); otherwise it is the raw zero
value of the aggregation. The Python safe factory ignores its (key) argument. -/
def nullSafeZeroFactory {α : Type} (zero_factory : Unit → α) (ignore_nulls : Bool) :
    Unit → Option α :=
  if ignore_nulls then fun _ => none else fun _ => some (zero_factory ())

/-- `_null_safe_combine` from the source. `ignore_nulls = true`: if `cur` is
null return `new`, else if `new` is null return `cur`, else raw-combine.
`ignore_nulls = false`: if `new` is null return `new`, else if `cur` is null
return `cur`, else raw-combine. An exception raised by the raw combine
propagates. -/
def nullSafeCombine {α : Type} (combine : α → α → Except String α) (ignore_nulls : Bool)
    (cur new : Option α) : Except String (Option α) :=
  if ignore_nulls then
    match cur, new with
    | none, _ => .ok new
    | some _, none => .ok cur
    | some c, some n => (combine c n).map some
  else
    match new, cur with
    | none, _ => .ok none
    | some _, none => .ok none
    | some n, some c => (combine c n).map some

/-- `_null_safe_finalize` from the source: a null accumulator is returned as
is; otherwise the raw finalize is applied (which may itself produce null). -/
def nullSafeFinalize {α β : Type} (finalize : α → Option β) : Option α → Option β
  | none => none
  | some acc => finalize acc

/-- Lifts a raw combine that cannot raise into the `Except` shape expected by
`nullSafeCombine`. -/
def liftCombine {α : Type} (combine : α → α → α) : α → α → Except String α :=
  fun cur new => .ok (combine cur new)

/-- The default `AggregateFnV2._finalize`: the identity transformation on the
accumulator. -/
def defaultFinalize {α : Type} (accumulator : α) : Option α :=
  some accumulator

/-- The immutable configuration of an `AggregateFnV2` descriptor: display
name, optional target column and null policy. -/
structure AggregateFnV2 where
  name : String
  target_col_name : Option String
  ignore_nulls : Bool
deriving DecidableEq

/-- `AggregateFnV2.__init__` from the source: rejects a falsy (empty) display
name at construction time, before any block is processed. -/
def AggregateFnV2.init (name : String) («on» : Option String) (ignore_nulls : Bool) :
    Except String AggregateFnV2 :=
  if name = "" then
    .error "Non-empty string has to be provided as name"
  else
    .ok ⟨name, «on», ignore_nulls⟩

/-- Python `str(on)` for an optional column name (`str(None) = "None"`). -/
def pyStr : Option String → String
  | none => "None"
  | some s => s

/-- Python `alias_name if alias_name else fallback`: a missing or empty alias
falls back to the canonical display name. -/
def resolveAlias (alias_name : Option String) (fallback : String) : String :=
  match alias_name with
  | some a => if a = "" then fallback else a
  | none => fallback

/-- `Count.__init__` from the source; note the `ignore_nulls = False`
default, unlike every other built-in kind. -/
def Count.init («on» : Option String := none) (ignore_nulls : Bool := false)
    (alias_name : Option String := none) : Except String AggregateFnV2 :=
  AggregateFnV2.init (resolveAlias alias_name ("count(" ++ «on».getD "" ++ ")")) «on» ignore_nulls

/-- `Sum.__init__` from the source (`ignore_nulls = True` default). -/
def Sum.init («on» : Option String := none) (ignore_nulls : Bool := true)
    (alias_name : Option String := none) : Except String AggregateFnV2 :=
  AggregateFnV2.init (resolveAlias alias_name ("sum(" ++ pyStr «on» ++ ")")) «on» ignore_nulls

/-- `Min.__init__` from the source (`ignore_nulls = True` default). -/
def Min.init («on» : Option String := none) (ignore_nulls : Bool := true)
    (alias_name : Option String := none) : Except String AggregateFnV2 :=
  AggregateFnV2.init (resolveAlias alias_name ("min(" ++ pyStr «on» ++ ")")) «on» ignore_nulls

/-- `Max.__init__` from the source (`ignore_nulls = True` default). -/
def Max.init («on» : Option String := none) (ignore_nulls : Bool := true)
    (alias_name : Option String := none) : Except String AggregateFnV2 :=
  AggregateFnV2.init (resolveAlias alias_name ("max(" ++ pyStr «on» ++ ")")) «on» ignore_nulls

/-- `Mean.__init__` from the source (`ignore_nulls = True` default). -/
def Mean.init («on» : Option String := none) (ignore_nulls : Bool := true)
    (alias_name : Option String := none) : Except String AggregateFnV2 :=
  AggregateFnV2.init (resolveAlias alias_name ("mean(" ++ pyStr «on» ++ ")")) «on» ignore_nulls

/-- `Std.__init__` from the source (`ignore_nulls = True` default; `ddof`
only affects the finalize step). -/
def Std.init («on» : Option String := none) (ddof : ℤ := 1) (ignore_nulls : Bool := true)
    (alias_name : Option String := none) : Except String AggregateFnV2 :=
  AggregateFnV2.init (resolveAlias alias_name ("std(" ++ pyStr «on» ++ ")")) «on» ignore_nulls

/-- `AbsMax.__init__` from the source: a missing target column is rejected at
construction time, before the base constructor runs
(`ignore_nulls = True` default). -/
def AbsMax.init («on» : Option String := none) (ignore_nulls : Bool := true)
    (alias_name : Option String := none) : Except String AggregateFnV2 :=
  match «on» with
  | none => .error "Column to aggregate on has to be provided"
  | some col =>
      AggregateFnV2.init (resolveAlias alias_name ("abs_max(" ++ col ++ ")")) (some col)
        ignore_nulls

/-- `Quantile.__init__` from the source (`q = 0.5` and `ignore_nulls = True`
defaults; `q` only affects the finalize step). -/
def Quantile.init («on» : Option String := none) (q : ℚ := 1/2) (ignore_nulls : Bool := true)
    (alias_name : Option String := none) : Except String AggregateFnV2 :=
  AggregateFnV2.init (resolveAlias alias_name ("quantile(" ++ pyStr «on» ++ ")")) «on» ignore_nulls

/-- `Unique.__init__` from the source (`ignore_nulls = True` default). -/
def Unique.init («on» : Option String := none) (ignore_nulls : Bool := true)
    (alias_name : Option String := none) : Except String AggregateFnV2 :=
  AggregateFnV2.init (resolveAlias alias_name ("unique(" ++ pyStr «on» ++ ")")) «on» ignore_nulls

/-- Count raw zero value (`lambda: 0`). -/
def Count.zero_factory : ℤ := 0

/-- `Count.combine` from the source: addition. -/
def Count.combine (current_accumulator new : ℤ) : ℤ :=
  current_accumulator + new

/-- Sum raw zero value (`lambda: 0`). -/
def Sum.zero_factory : ℚ := 0

/-- `Sum.combine` from the source: addition. -/
def Sum.combine (current_accumulator new : ℚ) : ℚ :=
  current_accumulator + new

/-- Min raw zero value (`lambda: float("+inf")`). -/
def Min.zero_factory : WithTop ℚ := ⊤

/-- `Min.combine` from the source: binary minimum. -/
def Min.combine (current_accumulator new : WithTop ℚ) : WithTop ℚ :=
  min current_accumulator new

/-- Max raw zero value (`lambda: float("-inf")`). -/
def Max.zero_factory : WithBot ℚ := ⊥

/-- `Max.combine` from the source: binary maximum. -/
def Max.combine (current_accumulator new : WithBot ℚ) : WithBot ℚ :=
  max current_accumulator new

/-- Mean raw zero value (`lambda: list([0, 0])`), a `[sum, count]` pair. -/
def Mean.zero_factory : ℚ × ℚ := (0, 0)

/-- `Mean.combine` from the source: elementwise sum of `[sum, count]` pairs. -/
def Mean.combine (current_accumulator new : ℚ × ℚ) : ℚ × ℚ :=
  (current_accumulator.1 + new.1, current_accumulator.2 + new.2)

/-- `Mean._finalize` from the source: `sum / count`, and `np.nan` (a null per
`is_null`, hence `none` here) when the count is zero. -/
def Mean.finalize (accumulator : ℚ × ℚ) : Option ℚ :=
  if accumulator.2 = 0 then none else some (accumulator.1 / accumulator.2)

/-- The Std accumulator `[M2, mean, count]`: sum of squared deviations from
`mean`, the running mean, and the element count. -/
structure StdAcc where
  M2 : ℚ
  mean : ℚ
  count : ℚ
deriving DecidableEq

/-- Std raw zero value (`lambda: list([0, 0, 0])`). -/
def Std.zero_factory : StdAcc := ⟨0, 0, 0⟩

/-- `Std.combine` from the source (Chan parallel-variance merge). Both
divisions share the denominator `count_a + count_b`; a zero denominator
raises `ZeroDivisionError` in Python, embedded as `Except.error`. -/
def Std.combine (current_accumulator new : StdAcc) : Except String StdAcc :=
  let delta := new.mean - current_accumulator.mean
  let count := current_accumulator.count + new.count
  if count = 0 then .error "ZeroDivisionError"
  else
    .ok
      { M2 := current_accumulator.M2 + new.M2 +
          delta ^ 2 * current_accumulator.count * new.count / count
        mean := (current_accumulator.mean * current_accumulator.count +
          new.mean * new.count) / count
        count := count }

/-- AbsMax raw zero value (`lambda: 0`). -/
def AbsMax.zero_factory : ℚ := 0

/-- `AbsMax.combine` from the source: binary maximum. -/
def AbsMax.combine (current_accumulator new : ℚ) : ℚ :=
  max current_accumulator new

/-- A value inside a Quantile accumulator: the reserved null, a number, or a
string (the combine treats the empty string specially). -/
inductive QVal where
  | null : QVal
  | num : ℚ → QVal
  | str : String → QVal
deriving DecidableEq

/-- A Quantile accumulator operand: either a list of raw values, or a bare
scalar left behind by an earlier null-short-circuit branch (the scalar may be
the null itself). -/
inductive QAcc where
  | list : List QVal → QAcc
  | scalar : QVal → QAcc
deriving DecidableEq

/-- Quantile raw zero value (`list`, i.e. the empty list). -/
def Quantile.zero_factory : QAcc := .list []

/-- The guard `x is not None and x != ""` applied to a scalar operand of
`Quantile.combine`: `some` the value when it is kept, `none` when skipped. -/
def Quantile.scalarKeep : QVal → Option QVal
  | .null => none
  | .str "" => none
  | v => some v

/-- `Quantile.combine` from the source: list+list concatenates; list+scalar
appends the scalar (if kept) to the list; scalar+scalar builds a 0-to-2
element list from the kept operands. In the scalar+list case the source
appends `current_accumulator` to the end of `new`. -/
def Quantile.combine : QAcc → QAcc → QAcc
  | .list cur, .list new => .list (cur ++ new)
  | .list cur, .scalar v => .list (cur ++ (Quantile.scalarKeep v).toList)
  | .scalar v, .list new => .list (new ++ (Quantile.scalarKeep v).toList)
  | .scalar v, .scalar w =>
      .list ((Quantile.scalarKeep v).toList ++ (Quantile.scalarKeep w).toList)

/-- A Unique accumulator operand: a set, or (defensively) a list or bare
scalar, normalized by `_to_set`. -/
inductive UniqueAcc where
  | set : Finset ℚ → UniqueAcc
  | list : List ℚ → UniqueAcc
  | scalar : ℚ → UniqueAcc

/-- Unique raw zero value (`set`, i.e. the empty set). -/
def Unique.zero_factory : UniqueAcc := .set ∅

/-- `Unique._to_set` from the source: normalizes a set, list or bare scalar
operand into a set. -/
def Unique.to_set : UniqueAcc → Finset ℚ
  | .set s => s
  | .list l => l.toFinset
  | .scalar x => {x}

/-- `Unique.combine` from the source: set union of the normalized operands. -/
def Unique.combine (current_accumulator new : UniqueAcc) : UniqueAcc :=
  .set (Unique.to_set current_accumulator ∪ Unique.to_set new)

/-- The list of raw values held by a Quantile accumulator (a combine result is
always a `.list`, so this is the contents of that list). -/
def QAcc.vals : QAcc → List QVal
  | .list l => l
  | .scalar v => [v]

/-- Python `round(x, 5)` at the fifth decimal place, integer part: round half
to even (the tie-breaking rule of Python `round`). -/
def roundHalfToEven (x : ℚ) : ℤ :=
  let f := ⌊x⌋
  let r := x - f
  if r < 1/2 then f
  else if 1/2 < r then f + 1
  else if Even f then f else f + 1

/-- Python `round(x, 5)` on the exact value. -/
def pyRound5 (x : ℚ) : ℚ :=
  (roundHalfToEven (x * 100000) : ℚ) / 100000

/-- The numeric tail of `Quantile._finalize` from the source, applied to the
null-free value list: none on the empty list; otherwise sort ascending,
fractional rank `k = (n - 1) * q`, `f = floor(k)`, `c = ceil(k)`; if `f = c`
return the element at index `k` exactly; otherwise return
`round(sorted[f]*(c-k) + sorted[c]*(k-f), 5)`. -/
def Quantile.finalizeVals (q : ℚ) (accumulator : List ℚ) : Option ℚ :=
  if accumulator = [] then none
  else
    let input_values := List.insertionSort (· ≤ ·) accumulator
    let k : ℚ := ((input_values.length : ℚ) - 1) * q
    let f : ℤ := ⌊k⌋
    let c : ℤ := ⌈k⌉
    if f = c then some (input_values.getD f.toNat 0)
    else
      let d0 := input_values.getD f.toNat 0 * ((c : ℚ) - k)
      let d1 := input_values.getD c.toNat 0 * (k - (f : ℚ))
      some (pyRound5 (d0 + d1))

/-- `Quantile._finalize` from the source on a list of nullable numeric
values: under `ignore_nulls` the null entries are dropped; otherwise the
first null found is returned when any is present (every null is `none`
here); then the numeric tail runs on the null-free values. -/
def Quantile.finalize (ignore_nulls : Bool) (q : ℚ) (accumulator : List (Option ℚ)) :
    Option ℚ :=
  if ignore_nulls then Quantile.finalizeVals q (accumulator.filterMap id)
  else if accumulator.any Option.isNone then none
  else Quantile.finalizeVals q (accumulator.filterMap id)

/-- The linear-interpolation ("R-7") quantile estimator exactly as worded by
the specification, written independently of `Quantile.finalizeVals` (in
particular with a different sorting routine). -/
def quantileSpecR7 (q : ℚ) (vals : List ℚ) : Option ℚ :=
  if vals = [] then none
  else
    let s := vals.mergeSort (fun a b => decide (a ≤ b))
    let k : ℚ := ((s.length : ℚ) - 1) * q
    let f : ℤ := ⌊k⌋
    let c : ℤ := ⌈k⌉
    if f = c then some (s.getD f.toNat 0)
    else
      some (pyRound5 (s.getD f.toNat 0 * ((c : ℚ) - k) + s.getD c.toNat 0 * (k - (f : ℚ))))

theorem roundHalfToEven_of_lt (x : ℚ) (i : ℤ) (h : ⌊x⌋ = i) (hr : x - i < 1/2) :
    roundHalfToEven x = i := by
  simp only [roundHalfToEven, h, if_pos hr]

theorem roundHalfToEven_of_gt (x : ℚ) (i : ℤ) (h : ⌊x⌋ = i) (hr : 1/2 < x - i) :
    roundHalfToEven x = i + 1 := by
  simp only [roundHalfToEven, h]
  rw [if_neg (by linarith), if_pos hr]

theorem finalizeVals_sorted_exact (q : ℚ) (l s : List ℚ) (i : ℤ)
    (hne : l ≠ []) (hs : List.insertionSort (· ≤ ·) l = s)
    (hfl : ⌊((s.length : ℚ) - 1) * q⌋ = i)
    (hcl : ⌈((s.length : ℚ) - 1) * q⌉ = i) :
    Quantile.finalizeVals q l = some (s.getD i.toNat 0) := by
  simp only [Quantile.finalizeVals, if_neg hne, hs, hfl, hcl]
  simp

theorem finalizeVals_sorted_interp (q : ℚ) (l s : List ℚ) (fi ci : ℤ)
    (hne : l ≠ []) (hs : List.insertionSort (· ≤ ·) l = s)
    (hfl : ⌊((s.length : ℚ) - 1) * q⌋ = fi)
    (hcl : ⌈((s.length : ℚ) - 1) * q⌉ = ci) (hfc : fi ≠ ci) :
    Quantile.finalizeVals q l =
      some (pyRound5 (s.getD fi.toNat 0 * ((ci : ℚ) - ((s.length : ℚ) - 1) * q) +
        s.getD ci.toNat 0 * (((s.length : ℚ) - 1) * q - (fi : ℚ)))) := by
  simp only [Quantile.finalizeVals, if_neg hne, hs, hfl, hcl, if_neg hfc]

theorem finalizeVals_perm (q : ℚ) (l₁ l₂ : List ℚ) (h : l₁.Perm l₂) :
    Quantile.finalizeVals q l₁ = Quantile.finalizeVals q l₂ := by
  have hs : List.insertionSort (· ≤ ·) l₁ = List.insertionSort (· ≤ ·) l₂ :=
    List.eq_of_perm_of_sorted
      ((List.perm_insertionSort _ l₁).trans (h.trans (List.perm_insertionSort _ l₂).symm))
      (List.sorted_insertionSort _ l₁) (List.sorted_insertionSort _ l₂)
  by_cases h₁ : l₁ = []
  · have h₂ : l₂ = [] := ((h₁ ▸ h).symm).eq_nil
    rw [h₁, h₂]
  · have h₂ : l₂ ≠ [] := fun hh => h₁ ((hh ▸ h).eq_nil)
    simp only [Quantile.finalizeVals, if_neg h₁, if_neg h₂, hs]

theorem Std.combine_eq_ok (a b : StdAcc) (h : a.count + b.count ≠ 0) :
    Std.combine a b = .ok
      ⟨a.M2 + b.M2 + (b.mean - a.mean) ^ 2 * a.count * b.count / (a.count + b.count),
       (a.mean * a.count + b.mean * b.count) / (a.count + b.count),
       a.count + b.count⟩ := by
  simp [Std.combine, if_neg h]

theorem Std.combine_comm (a b : StdAcc) : Std.combine a b = Std.combine b a := by
  simp only [Std.combine]
  rcases a with ⟨M2a, ma, ca⟩
  rcases b with ⟨M2b, mb, cb⟩
  simp only
  by_cases h : ca + cb = 0
  · rw [if_pos h, if_pos (by linarith)]
  · rw [if_neg h, if_neg (by intro hc; exact h (by linarith))]
    simp only [Except.ok.injEq, StdAcc.mk.injEq]
    refine ⟨?_, ?_, by ring⟩
    · rw [show cb + ca = ca + cb by ring]
      ring
    · rw [show cb + ca = ca + cb by ring]
      ring

theorem Std.combine_assoc (a b c : StdAcc) (ha : 0 < a.count) (hb : 0 < b.count)
    (hc : 0 < c.count) :
    (Std.combine a b).bind (fun ab => Std.combine ab c) =
      (Std.combine b c).bind (fun bc => Std.combine a bc) := by
  rcases a with ⟨M2a, ma, ca⟩
  rcases b with ⟨M2b, mb, cb⟩
  rcases c with ⟨M2c, mc, cc⟩
  simp only [StdAcc.count] at ha hb hc
  simp only [Std.combine]
  rw [if_neg (by positivity), if_neg (by positivity)]
  simp only [Except.bind]
  rw [if_neg (by positivity), if_neg (by positivity)]
  simp only [Except.ok.injEq, StdAcc.mk.injEq]
  refine ⟨?_, ?_, by ring⟩
  · field_simp
    ring
  · field_simp
    ring

theorem nullSafeCombine_comm {α : Type} (f : α → α → Except String α)
    (hf : ∀ a b, f a b = f b a) (ig : Bool) (x y : Option α) :
    nullSafeCombine f ig x y = nullSafeCombine f ig y x := by
  cases ig <;> cases x <;> cases y <;> simp [nullSafeCombine] <;> rw [hf]

theorem nullSafeCombine_assoc {α : Type} (g : α → α → α)
    (hg : ∀ a b c, g (g a b) c = g a (g b c)) (ig : Bool) (x y z : Option α) :
    (nullSafeCombine (liftCombine g) ig x y).bind
        (fun xy => nullSafeCombine (liftCombine g) ig xy z) =
      (nullSafeCombine (liftCombine g) ig y z).bind
        (fun yz => nullSafeCombine (liftCombine g) ig x yz) := by
  cases ig <;> cases x <;> cases y <;> cases z <;>
    simp [nullSafeCombine, liftCombine, Except.bind, Except.map, hg]

theorem nullSafeCombine_std_assoc (ig : Bool) (x y z : Option StdAcc)
    (hx : ∀ t ∈ x, 0 < t.count) (hy : ∀ t ∈ y, 0 < t.count) (hz : ∀ t ∈ z, 0 < t.count) :
    (nullSafeCombine Std.combine ig x y).bind
        (fun xy => nullSafeCombine Std.combine ig xy z) =
      (nullSafeCombine Std.combine ig y z).bind
        (fun yz => nullSafeCombine Std.combine ig x yz) := by
  rcases x with _ | a <;> rcases y with _ | b <;> rcases z with _ | c
  case some.some.some =>
    have ha := hx a (by simp)
    have hb := hy b (by simp)
    have hc := hz c (by simp)
    have hraw := Std.combine_assoc a b c ha hb hc
    obtain ⟨ab, hab⟩ : ∃ r, Std.combine a b = .ok r :=
      ⟨_, Std.combine_eq_ok a b (by positivity)⟩
    obtain ⟨bc, hbc⟩ : ∃ r, Std.combine b c = .ok r :=
      ⟨_, Std.combine_eq_ok b c (by positivity)⟩
    have h2 : Std.combine ab c = Std.combine a bc := by
      rw [hab, hbc] at hraw
      simpa [Except.bind] using hraw
    cases ig <;>
      · simp [nullSafeCombine, Except.bind, Except.map, hab, hbc]
        rw [h2]
  all_goals
    have ha' := hx
    have hb' := hy
    have hc' := hz
    simp_all [Option.mem_def]
  all_goals cases ig
  all_goals simp_all [nullSafeCombine, Except.bind, Except.map]
  all_goals rw [Std.combine_eq_ok _ _ (by positivity)]

theorem quantile_combine_perm_comm (a b : QAcc) :
    (Quantile.combine a b).vals.Perm (Quantile.combine b a).vals := by
  cases a <;> cases b <;>
    simp [Quantile.combine, QAcc.vals] <;>
    exact List.perm_append_comm

theorem quantile_combine_list_assoc (xs ys zs : List QVal) :
    Quantile.combine (Quantile.combine (.list xs) (.list ys)) (.list zs) =
      Quantile.combine (.list xs) (Quantile.combine (.list ys) (.list zs)) := by
  simp [Quantile.combine, List.append_assoc]

/-- C2: under `ignore_nulls = True` the safe zero factory returns null, and
null is a two-sided identity for the safe combine: `combine(zero(), a) = a`
and `combine(a, zero()) = a` for every accumulator `a`. -/
theorem C2_null_identity_law {α : Type} (zero_factory : Unit → α)
    (combine : α → α → Except String α) (a : Option α) :
    nullSafeZeroFactory zero_factory true () = none ∧
    nullSafeCombine combine true (nullSafeZeroFactory zero_factory true ()) a = .ok a ∧
    nullSafeCombine combine true a (nullSafeZeroFactory zero_factory true ()) = .ok a := by
  refine ⟨rfl, ?_, ?_⟩ <;> cases a <;> rfl

/-- C3: under `ignore_nulls = False` the safe combine is null-absorbing: if
either operand is null the result is null, so a poisoned accumulator stays
null through every subsequent combine, and the safe finalize returns a null
accumulator unchanged. -/
theorem C3_null_absorption {α β : Type} (combine : α → α → Except String α)
    (finalize : α → Option β) (a : Option α) :
    nullSafeCombine combine false a none = .ok none ∧
    nullSafeCombine combine false none a = .ok none ∧
    nullSafeFinalize finalize none = none := by
  refine ⟨?_, ?_, rfl⟩ <;> cases a <;> rfl

/-- C8: under `ignore_nulls = True` a group that receives no partial
accumulators finalizes to null: the safe zero factory returns null, the safe
finalize maps null to null, and in particular Count and Sum (whose raw
finalize is the identity `defaultFinalize`) yield null on an empty group,
not 0. -/
theorem C8_empty_group_yields_null {α : Type} (zero_factory : Unit → α)
    (finalize : α → Option α) :
    nullSafeZeroFactory zero_factory true () = none ∧
    nullSafeFinalize finalize (nullSafeZeroFactory zero_factory true ()) = none ∧
    nullSafeFinalize defaultFinalize
      (nullSafeZeroFactory (fun _ => Count.zero_factory) true ()) = none ∧
    nullSafeFinalize defaultFinalize
      (nullSafeZeroFactory (fun _ => Sum.zero_factory) true ()) = none ∧
    nullSafeFinalize defaultFinalize
      (nullSafeZeroFactory (fun _ => Count.zero_factory) true ()) ≠ some 0 ∧
    nullSafeFinalize defaultFinalize
      (nullSafeZeroFactory (fun _ => Sum.zero_factory) true ()) ≠ some 0 := by
  refine ⟨rfl, rfl, rfl, rfl, ?_, ?_⟩ <;> simp [nullSafeFinalize, nullSafeZeroFactory]

/-- C7: constructing a built-in aggregation fails at construction time with a
configuration error when the display name is empty, or when `AbsMax` is
constructed without a target column (whatever the other arguments are). -/
theorem C7_construction_errors («on» alias_name : Option String) (ignore_nulls : Bool) :
    AggregateFnV2.init "" «on» ignore_nulls =
      .error "Non-empty string has to be provided as name" ∧
    AbsMax.init none ignore_nulls alias_name =
      .error "Column to aggregate on has to be provided" ∧
    (AbsMax.init : Except String AggregateFnV2) =
      .error "Column to aggregate on has to be provided" := by
  exact ⟨rfl, rfl, rfl⟩

/-- C10: the constructor defaults for the null policy: `Count` defaults
`ignore_nulls` to `False`, while `Sum`, `Min`, `Max`, `Mean`, `Std`,
`AbsMax`, `Quantile` and `Unique` all default it to `True`. -/
theorem C10_default_ignore_nulls (col : String) :
    (Count.init (some col)).map AggregateFnV2.ignore_nulls = .ok false ∧
    (Sum.init (some col)).map AggregateFnV2.ignore_nulls = .ok true ∧
    (Min.init (some col)).map AggregateFnV2.ignore_nulls = .ok true ∧
    (Max.init (some col)).map AggregateFnV2.ignore_nulls = .ok true ∧
    (Mean.init (some col)).map AggregateFnV2.ignore_nulls = .ok true ∧
    (Std.init (some col)).map AggregateFnV2.ignore_nulls = .ok true ∧
    (AbsMax.init (some col)).map AggregateFnV2.ignore_nulls = .ok true ∧
    (Quantile.init (some col)).map AggregateFnV2.ignore_nulls = .ok true ∧
    (Unique.init (some col)).map AggregateFnV2.ignore_nulls = .ok true := by
  refine ⟨?_, ?_, ?_, ?_, ?_, ?_, ?_, ?_, ?_⟩ <;>
    simp [Count.init, Sum.init, Min.init, Max.init, Mean.init, Std.init, AbsMax.init,
      Quantile.init, Unique.init, AggregateFnV2.init, resolveAlias, pyStr,
      String.ext_iff, String.append, Except.map]

/-- C4: Std.combine on accumulators whose counts do not sum to zero returns
exactly count = count_a + count_b, the weighted-average mean
(mean_a*count_a + mean_b*count_b) / count, and
M2 = M2_a + M2_b + delta^2 * count_a * count_b / count with
delta = mean_b - mean_a; in exact arithmetic the weighted-average mean
coincides with the alternative form mean_a + delta*count_b/count (the two
differ only in floating-point rounding). -/
theorem C4_std_combine_formula (a b : StdAcc) (h : a.count + b.count ≠ 0) :
    Std.combine a b = .ok
      { M2 := a.M2 + b.M2 + (b.mean - a.mean) ^ 2 * a.count * b.count / (a.count + b.count)
        mean := (a.mean * a.count + b.mean * b.count) / (a.count + b.count)
        count := a.count + b.count } ∧
    (a.mean * a.count + b.mean * b.count) / (a.count + b.count) =
      a.mean + (b.mean - a.mean) * b.count / (a.count + b.count) := by
  refine ⟨Std.combine_eq_ok a b h, ?_⟩
  field_simp
  ring

/-- Witness for C4 at the concrete accumulators [0,0,1] and [0,1,1]. -/
theorem C4_std_combine_formula_witness :
    Std.combine ⟨0, 0, 1⟩ ⟨0, 1, 1⟩ = .ok ⟨1/2, 1/2, 2⟩ := by
  have h := (C4_std_combine_formula ⟨0, 0, 1⟩ ⟨0, 1, 1⟩ (by norm_num)).1
  rw [h]
  norm_num [StdAcc.mk.injEq]

/-- C9: Std.combine divides by count_a + count_b, so when the counts sum to
zero it raises ZeroDivisionError instead of returning an accumulator; in
particular the two zero-value accumulators [0,0,0] produced by the
(ignore_nulls = False) safe zero factory pass the safe-combine null checks
and reach the raising raw combine. -/
theorem C9_std_zero_division (a b : StdAcc) (h : a.count + b.count = 0) :
    Std.combine a b = .error "ZeroDivisionError" ∧
    nullSafeZeroFactory (fun _ => Std.zero_factory) false () = some Std.zero_factory ∧
    nullSafeCombine Std.combine false (some Std.zero_factory) (some Std.zero_factory) =
      .error "ZeroDivisionError" := by
  refine ⟨by simp [Std.combine, h], rfl, ?_⟩
  have hz : Std.combine Std.zero_factory Std.zero_factory = .error "ZeroDivisionError" := by
    simp [Std.combine, Std.zero_factory]
  simp [nullSafeCombine, hz, Except.map]

/-- Witness for C9 at the concrete zero accumulators [0,0,0]. -/
theorem C9_std_zero_division_witness :
    Std.combine ⟨0, 0, 0⟩ ⟨0, 0, 0⟩ = .error "ZeroDivisionError" :=
  (C9_std_zero_division ⟨0, 0, 0⟩ ⟨0, 0, 0⟩ (by norm_num)).1

/-- C6: Quantile.combine defensive merge rules: the scalar guard keeps a
scalar operand exactly when it is neither null nor the empty string;
list+list concatenates; list+scalar appends the kept scalar to the list;
scalar+scalar builds the 0-to-2-element list of the kept operands. -/
theorem C6_quantile_defensive_merge (cur new : List QVal) (v w : QVal) :
    Quantile.scalarKeep v = (if v = .null ∨ v = .str "" then none else some v) ∧
    Quantile.combine (.list cur) (.list new) = .list (cur ++ new) ∧
    Quantile.combine (.list cur) (.scalar v) =
      .list (cur ++ (Quantile.scalarKeep v).toList) ∧
    Quantile.combine (.scalar v) (.list new) =
      .list (new ++ (Quantile.scalarKeep v).toList) ∧
    Quantile.combine (.scalar v) (.scalar w) =
      .list ((Quantile.scalarKeep v).toList ++ (Quantile.scalarKeep w).toList) ∧
    ((Quantile.scalarKeep v).toList ++ (Quantile.scalarKeep w).toList).length ≤ 2 := by
  refine ⟨?_, rfl, rfl, rfl, rfl, ?_⟩
  · cases v with
    | null => simp [Quantile.scalarKeep]
    | num q => simp [Quantile.scalarKeep]
    | str s =>
      by_cases hs : s = "" <;> simp [Quantile.scalarKeep, hs]
  · cases Quantile.scalarKeep v <;> cases Quantile.scalarKeep w <;> simp

/-- C5: Quantile finalize: under `ignore_nulls` the null entries are dropped;
otherwise any null entry makes the result the first null found (null here);
an empty filtered list gives null; otherwise the result is the sorted R-7
linear-interpolation estimator as worded by the specification (exact element
at index k when floor(k) = ceil(k), otherwise the interpolation
sorted[f]*(c-k) + sorted[c]*(k-f) rounded to 5 decimal places); in
particular q=0.5 over [1,2,3,4] gives 2.5 and q=0.25 gives 1.75. -/
theorem C5_quantile_finalize (q : ℚ) (acc : List (Option ℚ)) (vals : List ℚ) :
    Quantile.finalize true q acc = Quantile.finalizeVals q (acc.filterMap id) ∧
    (acc.any Option.isNone = true → Quantile.finalize false q acc = none) ∧
    (acc.any Option.isNone = false →
      Quantile.finalize false q acc = Quantile.finalizeVals q (acc.filterMap id)) ∧
    (acc.filterMap id = [] → Quantile.finalize true q acc = none) ∧
    Quantile.finalizeVals q vals = quantileSpecR7 q vals ∧
    Quantile.finalize true (1/2) [some 1, some 2, some 3, some 4] = some (5/2) ∧
    Quantile.finalize true (1/4) [some 1, some 2, some 3, some 4] = some (7/4) ∧
    Quantile.finalize true (1/2) [some (1/3), none, some (1/3), some (1/3)] = some (1/3) ∧
    Quantile.finalize true (1/2) [some 0, some (1/3)] = some (16667/100000) := by
  refine ⟨rfl, ?_, ?_, ?_, ?_, ?_, ?_, ?_, ?_⟩
  · intro h
    simp [Quantile.finalize, h]
  · intro h
    simp [Quantile.finalize, h]
  · intro h
    simp [Quantile.finalize, Quantile.finalizeVals, h]
  · simp only [Quantile.finalizeVals, quantileSpecR7, List.mergeSort_eq_insertionSort]
  · rw [show Quantile.finalize true (1/2) [some 1, some 2, some 3, some 4]
        = Quantile.finalizeVals (1/2) [1, 2, 3, 4] from rfl]
    rw [finalizeVals_sorted_interp (1/2) [1, 2, 3, 4] [1, 2, 3, 4] 1 2 (by simp)
        (by norm_num [List.insertionSort, List.orderedInsert]) (by norm_num)
        (by norm_num [Int.ceil_eq_iff]) (by decide),
      show List.getD [(1:ℚ), 2, 3, 4] (Int.toNat 1) 0 = 2 from rfl,
      show List.getD [(1:ℚ), 2, 3, 4] (Int.toNat 2) 0 = 3 from rfl]
    push_cast
    norm_num
    rw [pyRound5, roundHalfToEven_of_lt (5/2 * 100000) 250000 (by norm_num) (by norm_num)]
    norm_num
  · rw [show Quantile.finalize true (1/4) [some 1, some 2, some 3, some 4]
        = Quantile.finalizeVals (1/4) [1, 2, 3, 4] from rfl]
    rw [finalizeVals_sorted_interp (1/4) [1, 2, 3, 4] [1, 2, 3, 4] 0 1 (by simp)
        (by norm_num [List.insertionSort, List.orderedInsert]) (by norm_num)
        (by norm_num [Int.ceil_eq_iff]) (by decide),
      show List.getD [(1:ℚ), 2, 3, 4] (Int.toNat 0) 0 = 1 from rfl,
      show List.getD [(1:ℚ), 2, 3, 4] (Int.toNat 1) 0 = 2 from rfl]
    push_cast
    norm_num
    rw [pyRound5, roundHalfToEven_of_lt (7/4 * 100000) 175000 (by norm_num) (by norm_num)]
    norm_num
  · rw [show Quantile.finalize true (1/2) [some (1/3), none, some (1/3), some (1/3)]
        = Quantile.finalizeVals (1/2) [1/3, 1/3, 1/3] from rfl]
    rw [finalizeVals_sorted_exact (1/2) [1/3, 1/3, 1/3] [1/3, 1/3, 1/3] 1 (by simp)
        (by norm_num [List.insertionSort, List.orderedInsert]) (by norm_num) (by norm_num)]
    rfl
  · rw [show Quantile.finalize true (1/2) [some 0, some (1/3)]
        = Quantile.finalizeVals (1/2) [0, 1/3] from rfl]
    rw [finalizeVals_sorted_interp (1/2) [0, 1/3] [0, 1/3] 0 1 (by simp)
        (by norm_num [List.insertionSort, List.orderedInsert]) (by norm_num)
        (by norm_num [Int.ceil_eq_iff]) (by decide),
      show List.getD [(0:ℚ), 1/3] (Int.toNat 0) 0 = 0 from rfl,
      show List.getD [(0:ℚ), 1/3] (Int.toNat 1) 0 = 1/3 from rfl]
    push_cast
    norm_num
    rw [pyRound5, roundHalfToEven_of_gt (1/6 * 100000) 16666 (by norm_num) (by norm_num)]
    norm_num

/-- Witness for C5: a null entry poisons the non-ignoring finalize, and an
all-null accumulator finalizes to null under the ignoring policy. -/
theorem C5_quantile_finalize_witness :
    Quantile.finalize false (1/2) [some 1, none] = none ∧
    Quantile.finalize true (1/2) [none, none] = none :=
  ⟨(C5_quantile_finalize (1/2) [some 1, none] []).2.1 rfl,
   (C5_quantile_finalize (1/2) [none, none] []).2.2.2.1 rfl⟩

/-- Counterexample to C1 as stated: Quantile's (null-safe) combine is not
commutative — combining the singleton list accumulators [1] and [2] in the
two orders yields the distinct accumulators [1, 2] and [2, 1]. -/
theorem C1_quantile_combine_not_commutative :
    nullSafeCombine (liftCombine Quantile.combine) true
        (some (.list [.num 1])) (some (.list [.num 2])) ≠
      nullSafeCombine (liftCombine Quantile.combine) true
        (some (.list [.num 2])) (some (.list [.num 1])) := by
  intro h
  simp [nullSafeCombine, liftCombine, Quantile.combine, Except.map] at h

/-- C1 (amended): for every built-in aggregation kind except Quantile the
null-safe combine is commutative and associative under both null policies
(for Std exactly, in exact arithmetic, commutative unconditionally and
associative on accumulators with positive counts, which is what
aggregate_block produces); Quantile's combine is associative on list
accumulators and commutative only up to reordering of the accumulated
values, a reordering the finalize step cannot observe. -/
theorem C1_combine_comm_assoc (ig : Bool) :
    (∀ x y : Option ℤ, nullSafeCombine (liftCombine Count.combine) ig x y =
      nullSafeCombine (liftCombine Count.combine) ig y x) ∧
    (∀ x y z : Option ℤ,
      (nullSafeCombine (liftCombine Count.combine) ig x y).bind
          (fun xy => nullSafeCombine (liftCombine Count.combine) ig xy z) =
        (nullSafeCombine (liftCombine Count.combine) ig y z).bind
          (fun yz => nullSafeCombine (liftCombine Count.combine) ig x yz)) ∧
    (∀ x y : Option ℚ, nullSafeCombine (liftCombine Sum.combine) ig x y =
      nullSafeCombine (liftCombine Sum.combine) ig y x) ∧
    (∀ x y z : Option ℚ,
      (nullSafeCombine (liftCombine Sum.combine) ig x y).bind
          (fun xy => nullSafeCombine (liftCombine Sum.combine) ig xy z) =
        (nullSafeCombine (liftCombine Sum.combine) ig y z).bind
          (fun yz => nullSafeCombine (liftCombine Sum.combine) ig x yz)) ∧
    (∀ x y : Option (WithTop ℚ), nullSafeCombine (liftCombine Min.combine) ig x y =
      nullSafeCombine (liftCombine Min.combine) ig y x) ∧
    (∀ x y z : Option (WithTop ℚ),
      (nullSafeCombine (liftCombine Min.combine) ig x y).bind
          (fun xy => nullSafeCombine (liftCombine Min.combine) ig xy z) =
        (nullSafeCombine (liftCombine Min.combine) ig y z).bind
          (fun yz => nullSafeCombine (liftCombine Min.combine) ig x yz)) ∧
    (∀ x y : Option (WithBot ℚ), nullSafeCombine (liftCombine Max.combine) ig x y =
      nullSafeCombine (liftCombine Max.combine) ig y x) ∧
    (∀ x y z : Option (WithBot ℚ),
      (nullSafeCombine (liftCombine Max.combine) ig x y).bind
          (fun xy => nullSafeCombine (liftCombine Max.combine) ig xy z) =
        (nullSafeCombine (liftCombine Max.combine) ig y z).bind
          (fun yz => nullSafeCombine (liftCombine Max.combine) ig x yz)) ∧
    (∀ x y : Option (ℚ × ℚ), nullSafeCombine (liftCombine Mean.combine) ig x y =
      nullSafeCombine (liftCombine Mean.combine) ig y x) ∧
    (∀ x y z : Option (ℚ × ℚ),
      (nullSafeCombine (liftCombine Mean.combine) ig x y).bind
          (fun xy => nullSafeCombine (liftCombine Mean.combine) ig xy z) =
        (nullSafeCombine (liftCombine Mean.combine) ig y z).bind
          (fun yz => nullSafeCombine (liftCombine Mean.combine) ig x yz)) ∧
    (∀ x y : Option ℚ, nullSafeCombine (liftCombine AbsMax.combine) ig x y =
      nullSafeCombine (liftCombine AbsMax.combine) ig y x) ∧
    (∀ x y z : Option ℚ,
      (nullSafeCombine (liftCombine AbsMax.combine) ig x y).bind
          (fun xy => nullSafeCombine (liftCombine AbsMax.combine) ig xy z) =
        (nullSafeCombine (liftCombine AbsMax.combine) ig y z).bind
          (fun yz => nullSafeCombine (liftCombine AbsMax.combine) ig x yz)) ∧
    (∀ x y : Option UniqueAcc, nullSafeCombine (liftCombine Unique.combine) ig x y =
      nullSafeCombine (liftCombine Unique.combine) ig y x) ∧
    (∀ x y z : Option UniqueAcc,
      (nullSafeCombine (liftCombine Unique.combine) ig x y).bind
          (fun xy => nullSafeCombine (liftCombine Unique.combine) ig xy z) =
        (nullSafeCombine (liftCombine Unique.combine) ig y z).bind
          (fun yz => nullSafeCombine (liftCombine Unique.combine) ig x yz)) ∧
    (∀ x y : Option StdAcc, nullSafeCombine Std.combine ig x y =
      nullSafeCombine Std.combine ig y x) ∧
    (∀ x y z : Option StdAcc, (∀ t ∈ x, 0 < t.count) → (∀ t ∈ y, 0 < t.count) →
      (∀ t ∈ z, 0 < t.count) →
      (nullSafeCombine Std.combine ig x y).bind
          (fun xy => nullSafeCombine Std.combine ig xy z) =
        (nullSafeCombine Std.combine ig y z).bind
          (fun yz => nullSafeCombine Std.combine ig x yz)) ∧
    (∀ a b : QAcc, (Quantile.combine a b).vals.Perm (Quantile.combine b a).vals) ∧
    (∀ xs ys zs : List QVal,
      Quantile.combine (Quantile.combine (.list xs) (.list ys)) (.list zs) =
        Quantile.combine (.list xs) (Quantile.combine (.list ys) (.list zs))) ∧
    (∀ (q : ℚ) (l₁ l₂ : List ℚ), l₁.Perm l₂ →
      Quantile.finalizeVals q l₁ = Quantile.finalizeVals q l₂) := by
  refine ⟨nullSafeCombine_comm _ (fun a b => by simp [liftCombine, Count.combine, Int.add_comm]) ig,
    nullSafeCombine_assoc _ (fun a b c => by simp [Count.combine, Int.add_assoc]) ig,
    nullSafeCombine_comm _ (fun a b => by simp [liftCombine, Sum.combine, add_comm]) ig,
    nullSafeCombine_assoc _ (fun a b c => by simp [Sum.combine, add_assoc]) ig,
    nullSafeCombine_comm _ (fun a b => by simp [liftCombine, Min.combine, min_comm]) ig,
    nullSafeCombine_assoc _ (fun a b c => by simp [Min.combine, min_assoc]) ig,
    nullSafeCombine_comm _ (fun a b => by simp [liftCombine, Max.combine, max_comm]) ig,
    nullSafeCombine_assoc _ (fun a b c => by simp [Max.combine, max_assoc]) ig,
    nullSafeCombine_comm _ (fun a b => by simp [liftCombine, Mean.combine, add_comm]) ig,
    nullSafeCombine_assoc _ (fun a b c => by simp [Mean.combine, add_assoc]) ig,
    nullSafeCombine_comm _ (fun a b => by simp [liftCombine, AbsMax.combine, max_comm]) ig,
    nullSafeCombine_assoc _ (fun a b c => by simp [AbsMax.combine, max_assoc]) ig,
    nullSafeCombine_comm _ (fun a b => by simp [liftCombine, Unique.combine, Finset.union_comm]) ig,
    nullSafeCombine_assoc _
      (fun a b c => by simp [Unique.combine, Unique.to_set, Finset.union_assoc]) ig,
    nullSafeCombine_comm _ Std.combine_comm ig,
    fun x y z hx hy hz => nullSafeCombine_std_assoc ig x y z hx hy hz,
    quantile_combine_perm_comm,
    quantile_combine_list_assoc,
    finalizeVals_perm⟩

/-- Witness for C1 (amended), discharging the hypotheses of its conditional
conjuncts at concrete inputs: the Std null-safe combine associates on three
positive-count accumulators, and the Quantile finalize agrees on the two
orders in which [1] and [2] can be combined. -/
theorem C1_combine_comm_assoc_witness :
    ((nullSafeCombine Std.combine true (some ⟨0, 0, 1⟩) (some ⟨0, 1, 1⟩)).bind
        (fun xy => nullSafeCombine Std.combine true xy (some ⟨0, 2, 2⟩)) =
      (nullSafeCombine Std.combine true (some ⟨0, 1, 1⟩) (some ⟨0, 2, 2⟩)).bind
        (fun yz => nullSafeCombine Std.combine true (some ⟨0, 0, 1⟩) yz)) ∧
    Quantile.finalizeVals (1/2) [1, 2] = Quantile.finalizeVals (1/2) [2, 1] := by
  obtain ⟨-, -, -, -, -, -, -, -, -, -, -, -, -, -, -, hstd, -, -, hperm⟩ :=
    C1_combine_comm_assoc true
  refine ⟨hstd (some ⟨0, 0, 1⟩) (some ⟨0, 1, 1⟩) (some ⟨0, 2, 2⟩) ?_ ?_ ?_,
    hperm (1/2) [1, 2] [2, 1] (List.Perm.swap 2 1 [])⟩
  all_goals intro t ht
  all_goals injection ht with ht
  all_goals rw [← ht]
  all_goals norm_num
